import Mathlib

/-!
Shallow embedding of `service2.py` (Data Processing Service) and a
verification of the specification claims about it.

Conventions of the embedding:
* Python `int` is modelled as `Int` (unbounded); the analytics average, a
  Python float, is modelled as `ℚ`, and `round(x, 2)` as rounding `x·100` to
  the nearest integer (`round2` below). No claim under study evaluates the
  average at a rounding tie, so the tie-breaking convention is immaterial.
* Python strings are `String`; `email.split("@")` is modelled character-wise
  by `pySplit`, which mirrors `str.split` with a one-character separator.
* The in-memory dict `processed_users_db` is an insertion-ordered association
  list with unique keys; `dictInsert` overwrites in place (Python dict
  update), `dictRemove` models the removal performed by `dict.pop`, `dictGet`
  models lookup.
* Each HTTP handler is a pure function of the store (and, where relevant, of
  the behaviour of the peer service, passed as an oracle); an `Except` error
  value carries the HTTP status code of the raised `HTTPException`, while
  `Except.error ()` in the analytics aggregator marks an uncaught Python
  exception (a `TypeError` escaping the handler).
-/

namespace Service2

/-- Input model `User` of service2: `id: Optional[int]`, `name: str`,
`email: str`, `age: int`. -/
structure RawUser where
  id : Option Int
  name : String
  email : String
  age : Int
deriving DecidableEq, Repr

/-- Character-level model of Python `s.split(sep)` for a one-character
separator: `pySplit sep s` is the list of (possibly empty) chunks of `s`
between occurrences of `sep`; it is never empty. -/
def pySplit (sep : Char) : List Char → List (List Char)
  | [] => [[]]
  | c :: cs =>
    if c = sep then [] :: pySplit sep cs
    else
      match pySplit sep cs with
      | [] => [[c]]
      | p :: ps => (c :: p) :: ps

/-- The dict built at `service2.py:55`–`63`: the derived fields computed by
the `process_user` handler from the raw user. -/
structure ProcessedData where
  name_length : Nat
  email_domain : String
  age_category : String
  name_uppercase : String
  email_uppercase : String
  age_squared : Int
  is_adult : Bool
deriving DecidableEq, Repr

/-- Embedding of the `processed_data` computation in `process_user`
(`service2.py:55`–`63`):
`email.split("@")[-1] if "@" in email else "unknown"`,
`"young" if age < 30 else "middle" if age < 50 else "senior"`, etc. -/
def process_user_data (user : RawUser) : ProcessedData :=
  { name_length := user.name.length
    email_domain :=
      if '@' ∈ user.email.toList then
        String.mk ((pySplit '@' user.email.toList).getLastD [])
      else "unknown"
    age_category :=
      if user.age < 30 then "young" else if user.age < 50 then "middle" else "senior"
    name_uppercase := user.name.toUpper
    email_uppercase := user.email.toUpper
    age_squared := user.age ^ 2
    is_adult := decide (user.age ≥ 18) }

/-- The fixed `analytics` metadata block stored with every processed record
(`service2.py:70`–`74`): simulated constants, not measurements. -/
def fixedAnalytics : List (String × ℚ) :=
  [("processing_time_ms", 150), ("data_quality_score", 95/100),
   ("confidence_level", 88/100)]

/-- Stored record model `ProcessedUserData` (`service2.py:20`–`24`). -/
structure ProcessedUserData where
  user_id : Int
  processed_data : ProcessedData
  processing_timestamp : String
  analytics : List (String × ℚ)
deriving DecidableEq, Repr

/-- The in-memory store `processed_users_db`: a Python dict from user id to
record, modelled as an insertion-ordered association list with unique keys. -/
def Store : Type := List (Int × ProcessedUserData)

/-- Dict lookup: first (and, with unique keys, only) binding of the key. -/
def dictGet (k : Int) : Store → Option ProcessedUserData
  | [] => none
  | (a, v) :: rest => if a = k then some v else dictGet k rest

/-- Dict update `d[k] = v`: overwrite in place if the key is present,
otherwise append (Python dicts preserve insertion order). -/
def dictInsert (k : Int) (v : ProcessedUserData) : Store → Store
  | [] => [(k, v)]
  | (a, w) :: rest => if a = k then (k, v) :: rest else (a, w) :: dictInsert k v rest

/-- Removal part of `d.pop(k)`: drop the binding of `k`. -/
def dictRemove (k : Int) : Store → Store
  | [] => []
  | (a, v) :: rest => if a = k then dictRemove k rest else (a, v) :: dictRemove k rest

/-- `POST /process-user` (`service2.py:48`–`81`). Rejects a missing or zero id
with 400 (`if not user.id` is Python-truthy for both `None` and `0`), else
stores the derived record under the id and returns the id echoed in the
response. `now` stands for `datetime.now().isoformat()`. -/
def process_user (user : RawUser) (now : String) (st : Store) :
    Except Nat (Store × Int) :=
  match user.id with
  | none => .error 400
  | some i =>
    if i = 0 then .error 400
    else
      .ok (dictInsert i
        { user_id := i
          processed_data := process_user_data user
          processing_timestamp := now
          analytics := fixedAnalytics } st, i)

/-- `GET /processed-users/{user_id}` (`service2.py:83`–`89`): 404 if absent,
else the stored record. -/
def get_processed_user (user_id : Int) (st : Store) : Except Nat ProcessedUserData :=
  match dictGet user_id st with
  | none => .error 404
  | some d => .ok d

/-- The success message of the delete endpoint (`service2.py:105`). -/
def deleteMsg (user_id : Int) : String :=
  s!"Processed data for user {user_id} deleted successfully"

/-- `DELETE /processed-users/{user_id}` (`service2.py:96`–`105`): 404 if the
id is absent; else `deleted_data = processed_users_db.pop(user_id)` removes
the binding and hands the removed record to the handler, which responds with
a success message. The result carries (popped record, response message,
store after removal). -/
def delete_processed_user (user_id : Int) (st : Store) :
    Except Nat (ProcessedUserData × String × Store) :=
  match dictGet user_id st with
  | none => .error 404
  | some d => .ok (d, deleteMsg user_id, dictRemove user_id st)

/-- A JSON `age` value found in a 200 response body of the peer service:
either a number (summable by Python's `sum`) or some non-numeric value
(string, null, list, ...), which `ages.append` accepts but `sum` rejects
with a `TypeError`. -/
inductive AgeVal where
  | num (n : Int)
  | nonNum
deriving DecidableEq, Repr

/-- Observable outcome of the per-record peer call
`GET {SERVICE1_URL}/users/{user_id}` as seen by the aggregation loop
(`service2.py:128`–`134`):
* `exn`  — an exception was raised inside the `try` block (timeout,
  connection error, body that fails `response.json()`, missing `"age"` key);
* `nonOk` — a response arrived with `status_code ≠ 200` (no exception);
* `ok v` — a 200 response whose parsed body has `"age"` mapped to `v`. -/
inductive RemoteOutcome where
  | exn
  | nonOk
  | ok (v : AgeVal)
deriving DecidableEq, Repr

/-- The category-based fallback estimate (`service2.py:136`–`141`):
`young→25`, `middle→40`, anything else→`60`. -/
def estimate (c : String) : Int :=
  if c = "young" then 25 else if c = "middle" then 40 else 60

/-- What one loop iteration appends to `ages` (`service2.py:127`–`141`) for a
record with stored category `c`, given the peer-call outcome: the live value
on a 200 response, nothing on a non-200 response (no exception is raised, so
the `except` branch never runs), and the category estimate when an exception
was raised. -/
def resolveAge (c : String) (o : RemoteOutcome) : List AgeVal :=
  match o with
  | .ok v => [v]
  | .nonOk => []
  | .exn => [.num (estimate c)]

/-- Python `sum(ages)`: succeeds with the integer sum when every element is a
number, raises `TypeError` (modelled as `Except.error ()`) as soon as a
non-numeric element takes part. -/
def sumAges : List AgeVal → Except Unit Int
  | [] => .ok 0
  | .num n :: rest => (fun s => n + s) <$> sumAges rest
  | .nonNum :: _ => .error ()

/-- Model of Python `round(x, 2)`: round `x·100` to the nearest integer and
divide back. -/
def round2 (q : ℚ) : ℚ := (round (q * 100) : ℤ) / 100

/-- `GET /analytics` response model `AnalyticsSummary` (`service2.py:26`–`30`);
the two dict fields keep their (ordered) key-value entries. -/
structure AnalyticsSummary where
  total_users : Nat
  average_age : ℚ
  age_distribution : List (String × Nat)
  processing_stats : List (String × ℚ)
deriving DecidableEq, Repr

/-- `age_distribution[cat] = age_distribution.get(cat, 0) + 1`
(`service2.py:125`) on a Python dict: bump in place when the key exists,
otherwise append a fresh binding with count 1. (The source reads the
category via `.get("age_category", "unknown")`; in this model the field is
always present, as it is for every record built by `process_user`.) -/
def distUpdate (k : String) (d : List (String × Nat)) : List (String × Nat) :=
  if d.any (fun p => p.1 == k) then
    d.map (fun p => if p.1 == k then (p.1, p.2 + 1) else p)
  else d ++ [(k, 1)]

/-- The initial histogram `{"young": 0, "middle": 0, "senior": 0}`
(`service2.py:121`). -/
def initDist : List (String × Nat) := [("young", 0), ("middle", 0), ("senior", 0)]

/-- The aggregation loop over `processed_users_db.values()`
(`service2.py:123`–`141`), with accumulators for the histogram, the `ages`
list, and the trace of user ids for which an outbound peer call was issued. -/
def analyticsLoop (peer : Int → RemoteOutcome) :
    List ProcessedUserData → List (String × Nat) → List AgeVal → List Int →
    List (String × Nat) × List AgeVal × List Int
  | [], d, a, t => (d, a, t)
  | r :: rest, d, a, t =>
    analyticsLoop peer rest (distUpdate r.processed_data.age_category d)
      (a ++ resolveAge r.processed_data.age_category (peer r.user_id))
      (t ++ [r.user_id])

/-- `GET /analytics` (`service2.py:107`–`157`). `peer` is the behaviour of
service1, indexed by user id. Returns the summary together with the list of
user ids an outbound call was made for, or `Except.error ()` when the handler
dies with an uncaught `TypeError` (a non-numeric live age poisoning
`sum(ages)` at `service2.py:143`). -/
def get_analytics (st : Store) (peer : Int → RemoteOutcome) :
    Except Unit (AnalyticsSummary × List Int) :=
  if st.isEmpty then
    .ok ({ total_users := 0, average_age := 0,
           age_distribution := [], processing_stats := [] }, [])
  else
    match analyticsLoop peer (st.map Prod.snd) initDist [] [] with
    | (dist, ages, trace) =>
      match sumAges ages with
      | .error _ => .error ()
      | .ok s =>
        let average : ℚ := if ages.isEmpty then 0 else (s : ℚ) / (ages.length : ℚ)
        .ok ({ total_users := st.length
               average_age := round2 average
               age_distribution := dist
               processing_stats :=
                 [("total_processed", (st.length : ℚ)),
                  ("avg_processing_time_ms", 150),
                  ("avg_confidence_level", 88/100),
                  ("avg_data_quality_score", 95/100)] }, trace)

/-- Outcome of one `client.post(f"{SERVICE1_URL}/process-user", json=user)`
call inside the batch loop (`service2.py:211`–`216`): either an exception is
raised (which, through the surrounding `try`, aborts the whole handler), or a
response with some status code arrives. -/
inductive SubOutcome where
  | exn
  | status (code : Nat)
deriving DecidableEq, Repr

/-- Outcome of the initial `GET {SERVICE1_URL}/users` fetch
(`service2.py:204`–`206`): an exception, or a response with a status code
and (for a 200) a parsed user list. Each fetched user is represented by the
outcome of its own later re-submission, the only attribute of it this
handler's result depends on. -/
inductive FetchOutcome where
  | exn
  | resp (status : Nat) (users : List SubOutcome)
deriving DecidableEq, Repr

/-- `POST /batch-process` response body (`service2.py:218`–`222`). -/
structure BatchResp where
  total_users : Nat
  processed_count : Nat
deriving DecidableEq, Repr

/-- The submission loop (`service2.py:208`–`216`): walk the fetched users,
counting those whose re-submission returned status 200; skip (without
counting) any other status; an exception escapes the loop (the surrounding
`try` turns it into a 500 for the whole batch). -/
def runSubs : List SubOutcome → Except Unit Nat
  | [] => .ok 0
  | .exn :: _ => .error ()
  | .status c :: rest =>
    (fun n => if c = 200 then n + 1 else n) <$> runSubs rest

/-- `POST /batch-process` (`service2.py:198`–`226`): 500 when the initial
fetch raises or returns non-200 (the inner `HTTPException` is itself caught
by `except Exception` and re-raised as 500), 500 when any individual
re-submission raises, and otherwise the total and processed counts. -/
def batch_process_users (f : FetchOutcome) : Except Nat BatchResp :=
  match f with
  | .exn => .error 500
  | .resp status users =>
    if status = 200 then
      match runSubs users with
      | .error _ => .error 500
      | .ok n => .ok { total_users := users.length, processed_count := n }
    else .error 500

/-- The histogram accumulated by the aggregation loop, isolated from the
other accumulators for reasoning. -/
def loopDist : List ProcessedUserData → List (String × Nat) → List (String × Nat)
  | [], d => d
  | r :: rest, d => loopDist rest (distUpdate r.processed_data.age_category d)

/-- The `ages` list accumulated by the aggregation loop, isolated from the
other accumulators for reasoning. -/
def loopAges (peer : Int → RemoteOutcome) : List ProcessedUserData → List AgeVal
  | [] => []
  | r :: rest => resolveAge r.processed_data.age_category (peer r.user_id) ++ loopAges peer rest

/-- Spec-side description of what one record contributes to the age sum:
its live age on a 200 response with a numeric body, the category estimate on
an exception, and nothing on a non-200 response. Compared against the
embedded loop in the claim 2 theorem. -/
def contribCore (c : String) (o : RemoteOutcome) : List Int :=
  match o with
  | .ok (.num n) => [n]
  | .ok .nonNum => []
  | .nonOk => []
  | .exn => [estimate c]

/-- Spec-side list of contributed age values over a record list. -/
def specAges (peer : Int → RemoteOutcome) : List ProcessedUserData → List Int
  | [] => []
  | r :: rest => contribCore r.processed_data.age_category (peer r.user_id) ++ specAges peer rest

/-- Sample raw user for concrete witnesses. -/
def annUser : RawUser := ⟨some 1, "Ann", "a@b.com", 20⟩

/-- The record `process_user` stores for `annUser` at timestamp `"t0"`. -/
def annRecord : ProcessedUserData := ⟨1, process_user_data annUser, "t0", fixedAnalytics⟩

/-- A one-record store. -/
def annStore : Store := [(1, annRecord)]

/-- Second sample raw user for concrete witnesses. -/
def bobUser : RawUser := ⟨some 2, "Bob", "b@c.org", 25⟩

/-- The record `process_user` stores for `bobUser` at timestamp `"t0"`. -/
def bobRecord : ProcessedUserData := ⟨2, process_user_data bobUser, "t0", fixedAnalytics⟩

/-- A two-record store. -/
def pairStore : Store := [(1, annRecord), (2, bobRecord)]

/-- A peer behaviour answering user 1 with a live age of 20 and everyone
else with a non-200 response. -/
def mixedPeer : Int → RemoteOutcome := fun i => if i = 1 then .ok (.num 20) else .nonOk

/-- The summary `/analytics` produces for `annStore` when every peer call
raises. -/
def annSummary : AnalyticsSummary :=
  { total_users := 1, average_age := 25,
    age_distribution := [("young", 1), ("middle", 0), ("senior", 0)],
    processing_stats := [("total_processed", 1), ("avg_processing_time_ms", 150),
      ("avg_confidence_level", 88/100), ("avg_data_quality_score", 95/100)] }

/-- Inserting a binding makes it the one found by lookup. -/
theorem dictGet_dictInsert_self (k : Int) (v : ProcessedUserData) (st : Store) :
    dictGet k (dictInsert k v st) = some v := by
  induction st with
  | nil => simp [dictInsert, dictGet]
  | cons p rest ih =>
    obtain ⟨a, w⟩ := p
    by_cases h : a = k
    · simp [dictInsert, h, dictGet]
    · simp [dictInsert, h, dictGet, ih]

/-- After removal a key is no longer found. -/
theorem dictGet_dictRemove_self (k : Int) (st : Store) :
    dictGet k (dictRemove k st) = none := by
  induction st with
  | nil => rfl
  | cons p rest ih =>
    obtain ⟨a, w⟩ := p
    by_cases h : a = k
    · simp [dictRemove, h, ih]
    · simp [dictRemove, h, dictGet, ih]

/-- Python `split` never yields an empty list of chunks. -/
theorem pySplit_ne_nil (sep : Char) (l : List Char) : pySplit sep l ≠ [] := by
  cases l with
  | nil => simp [pySplit]
  | cons c cs =>
    by_cases h : c = sep
    · simp [pySplit, h]
    · simp only [pySplit, if_neg h]
      split <;> simp

/-- Splitting a string free of the separator yields the single whole chunk. -/
theorem pySplit_of_not_mem (sep : Char) (l : List Char) (h : sep ∉ l) :
    pySplit sep l = [l] := by
  induction l with
  | nil => rfl
  | cons c cs ih =>
    have h1 : ¬ c = sep := by
      intro e
      exact h (e ▸ List.mem_cons_self c cs)
    have h2 : sep ∉ cs := fun m => h (List.mem_cons_of_mem _ m)
    simp only [pySplit, if_neg h1, ih h2]

/-- A string containing the separator splits into at least two chunks. -/
theorem two_le_length_pySplit (sep : Char) (l : List Char) (h : sep ∈ l) :
    2 ≤ (pySplit sep l).length := by
  induction l with
  | nil => simp at h
  | cons c cs ih =>
    by_cases hc : c = sep
    · have h1 : (pySplit sep cs).length ≠ 0 := by
        simpa [List.length_eq_zero] using pySplit_ne_nil sep cs
      simp only [pySplit, if_pos hc, List.length_cons]
      omega
    · have hmem : sep ∈ cs := by
        rcases List.mem_cons.mp h with h' | h'
        · exact absurd h'.symm hc
        · exact h'
      simp only [pySplit, if_neg hc]
      cases hps : pySplit sep cs with
      | nil => exact absurd hps (pySplit_ne_nil sep cs)
      | cons p ps =>
        have h2 := ih hmem
        rw [hps] at h2
        simpa using h2

/-- The last element of a nonempty list does not depend on the fallback. -/
theorem getLastD_of_ne_nil {α : Type} (l : List α) (h : l ≠ []) (d d' : α) :
    l.getLastD d = l.getLastD d' := by
  cases l with
  | nil => exact absurd rfl h
  | cons x xs => simp only [List.getLastD_cons]

/-- The last chunk of a split is untouched by anything before the last
separator occurrence. -/
theorem pySplit_getLastD_append (sep : Char) (p s : List Char) :
    (pySplit sep (p ++ sep :: s)).getLastD [] = (pySplit sep s).getLastD [] := by
  induction p with
  | nil =>
    simp only [List.nil_append, pySplit, eq_self_iff_true, if_true]
    rw [List.getLastD_cons]
  | cons c p ih =>
    by_cases hc : c = sep
    · simp only [List.cons_append, pySplit, if_pos hc]
      rw [List.getLastD_cons]
      exact (getLastD_of_ne_nil _ (pySplit_ne_nil _ _) _ _).trans ih
    · have hmem : sep ∈ p ++ sep :: s := List.mem_append_right _ (List.mem_cons_self _ _)
      simp only [List.cons_append, pySplit, if_neg hc]
      split
      · next heq => exact absurd heq (pySplit_ne_nil _ _)
      · next q qs heq =>
        rw [List.append_eq] at heq
        rw [heq] at ih
        have hlen := two_le_length_pySplit sep _ hmem
        rw [heq] at hlen
        have hqs : qs ≠ [] := by
          intro e
          rw [e] at hlen
          simp at hlen
        rw [List.getLastD_cons]
        rw [List.getLastD_cons] at ih
        exact (getLastD_of_ne_nil qs hqs _ _).trans ih

/-- The aggregation loop in terms of its three independent accumulators. -/
theorem analyticsLoop_eq (peer : Int → RemoteOutcome) (recs : List ProcessedUserData)
    (d : List (String × Nat)) (a : List AgeVal) (t : List Int) :
    analyticsLoop peer recs d a t =
      (loopDist recs d, a ++ loopAges peer recs, t ++ recs.map (fun r => r.user_id)) := by
  induction recs generalizing d a t with
  | nil => simp [analyticsLoop, loopDist, loopAges]
  | cons r rest ih => simp [analyticsLoop, loopDist, loopAges, ih]

/-- When no 200 response carries a non-numeric age, the loop's `ages` list is
the spec-side contribution list, all numeric. -/
theorem loopAges_eq_specAges (peer : Int → RemoteOutcome) (recs : List ProcessedUserData)
    (h : ∀ r ∈ recs, ∀ v, peer r.user_id = .ok v → v ≠ .nonNum) :
    loopAges peer recs = (specAges peer recs).map AgeVal.num := by
  induction recs with
  | nil => rfl
  | cons r rest ih =>
    have hr := h r (List.mem_cons_self _ _)
    have hrest : ∀ r' ∈ rest, ∀ v, peer r'.user_id = .ok v → v ≠ .nonNum :=
      fun r' m => h r' (List.mem_cons_of_mem _ m)
    simp only [loopAges, specAges, List.map_append, ih hrest]
    congr 1
    cases ho : peer r.user_id with
    | exn => simp [resolveAge, contribCore]
    | nonOk => simp [resolveAge, contribCore]
    | ok v =>
      cases v with
      | num n => simp [resolveAge, contribCore]
      | nonNum => exact absurd rfl (hr _ ho)

/-- `sum` of an all-numeric `ages` list succeeds with the integer sum. -/
theorem sumAges_map_num (l : List Int) : sumAges (l.map AgeVal.num) = .ok l.sum := by
  induction l with
  | nil => rfl
  | cons n rest ih => simp [sumAges, ih, List.sum_cons, Except.map]

/-- Without a raising submission, the batch loop counts the 200 responses. -/
theorem runSubs_no_exn (users : List SubOutcome) (h : SubOutcome.exn ∉ users) :
    runSubs users = .ok (users.countP (fun s => s == SubOutcome.status 200)) := by
  induction users with
  | nil => rfl
  | cons s rest ih =>
    cases s with
    | exn => exact absurd (List.mem_cons_self _ _) h
    | status c =>
      have h' : SubOutcome.exn ∉ rest := fun m => h (List.mem_cons_of_mem _ m)
      simp only [runSubs, ih h', Except.map, List.countP_cons]
      by_cases hc : c = 200
      · simp [hc]
      · simp [hc]

/-- A raising submission anywhere aborts the batch loop. -/
theorem runSubs_abort (pre post : List SubOutcome) :
    runSubs (pre ++ SubOutcome.exn :: post) = .error () := by
  induction pre with
  | nil => rfl
  | cons s rest ih =>
    cases s with
    | exn => rfl
    | status c => simp [runSubs, ih, Except.map]

/-- Starting from the three-key histogram, folding categories drawn from the
three known values keeps exactly those three keys and adds one count per
record. -/
theorem loopDist_three (recs : List ProcessedUserData) (a b c : Nat)
    (h : ∀ r ∈ recs,
      r.processed_data.age_category ∈ (["young", "middle", "senior"] : List String)) :
    ∃ a' b' c', loopDist recs [("young", a), ("middle", b), ("senior", c)] =
        [("young", a'), ("middle", b'), ("senior", c')] ∧
      a' + b' + c' = a + b + c + recs.length := by
  induction recs generalizing a b c with
  | nil => exact ⟨a, b, c, rfl, by simp⟩
  | cons r rest ih =>
    have hr := h r (List.mem_cons_self _ _)
    have h' : ∀ r' ∈ rest,
        r'.processed_data.age_category ∈ (["young", "middle", "senior"] : List String) :=
      fun r' m => h r' (List.mem_cons_of_mem _ m)
    simp only [List.mem_cons, List.not_mem_nil, or_false] at hr
    rcases hr with hc | hc | hc
    · have hd : distUpdate "young" [("young", a), ("middle", b), ("senior", c)] =
          [("young", a + 1), ("middle", b), ("senior", c)] := by simp [distUpdate]
      simp only [loopDist, hc, hd]
      obtain ⟨a', b', c', heq, hsum⟩ := ih (a + 1) b c h'
      exact ⟨a', b', c', heq, by simp; omega⟩
    · have hd : distUpdate "middle" [("young", a), ("middle", b), ("senior", c)] =
          [("young", a), ("middle", b + 1), ("senior", c)] := by simp [distUpdate]
      simp only [loopDist, hc, hd]
      obtain ⟨a', b', c', heq, hsum⟩ := ih a (b + 1) c h'
      exact ⟨a', b', c', heq, by simp; omega⟩
    · have hd : distUpdate "senior" [("young", a), ("middle", b), ("senior", c)] =
          [("young", a), ("middle", b), ("senior", c + 1)] := by simp [distUpdate]
      simp only [loopDist, hc, hd]
      obtain ⟨a', b', c', heq, hsum⟩ := ih a b (c + 1) h'
      exact ⟨a', b', c', heq, by simp; omega⟩

/-- Claim C1, counterexample. The claim says every failed lookup — explicitly
including a non-200 HTTP status — contributes the category estimate to the
age sum. In the code a non-200 response raises no exception, so the `except`
branch never runs and nothing is appended: for a store holding one record of
category "young" and a peer always answering non-200, the average comes out
0, not the estimate 25 the claim requires. -/
theorem claim_C1_counterexample :
    (get_analytics annStore (fun _ => RemoteOutcome.nonOk)).map (fun p => p.1.average_age) =
      .ok 0 ∧
    (process_user_data annUser).age_category = "young" ∧
    estimate "young" = 25 ∧
    (0 : ℚ) ≠ 25 := by
  have hm : (("middle" : String) = "young") = False := by simp
  have hs : (("senior" : String) = "young") = False := by simp
  refine ⟨?_, by decide, by decide, by norm_num⟩
  norm_num [get_analytics, annStore, annRecord, annUser, analyticsLoop, resolveAge, initDist,
    distUpdate, sumAges, round2, round_eq, process_user_data, hm, hs, Except.map]

/-- Claim C1, as amended: during a `GET /analytics` aggregation, a record
whose remote age lookup raises an exception (timeout, connection error,
malformed/unparseable body) contributes the deterministic estimate derived
from its stored category — young→25, middle→40, senior→60 — to the running
age sum; a lookup answered with a non-200 status raises no exception and the
record contributes nothing; a 200 response contributes its live value. -/
theorem claim_C1_thm (c : String) (v : AgeVal) :
    resolveAge c RemoteOutcome.exn = [AgeVal.num (estimate c)] ∧
    resolveAge c RemoteOutcome.nonOk = [] ∧
    resolveAge c (RemoteOutcome.ok v) = [v] ∧
    estimate "young" = 25 ∧ estimate "middle" = 40 ∧ estimate "senior" = 60 :=
  ⟨rfl, rfl, rfl, by decide, by decide, by decide⟩

/-- Claim C2, counterexample. The claim divides the sum of per-record values
(live or estimated) by the total number of stored records. For a two-record
store where user 1 answers 200 with age 20 and user 2 answers non-200, the
code skips record 2 entirely: `average_age` is 20 (= 20/1), while the
claim's formula gives `round((20 + 25)/2, 2)` = 22.5. -/
theorem claim_C2_counterexample :
    (get_analytics pairStore mixedPeer).map (fun p => p.1.average_age) = .ok 20 ∧
    (get_analytics pairStore mixedPeer).map (fun p => p.1.total_users) = .ok 2 ∧
    (20 : ℚ) ≠ round2 ((20 + 25) / 2) := by
  have hm : (("middle" : String) = "young") = False := by simp
  have hs : (("senior" : String) = "young") = False := by simp
  refine ⟨?_, ?_, ?_⟩
  · norm_num [get_analytics, pairStore, annRecord, annUser, bobRecord, bobUser, analyticsLoop,
      resolveAge, initDist, distUpdate, sumAges, round2, round_eq, process_user_data,
      mixedPeer, hm, hs, Except.map]
  · norm_num [get_analytics, pairStore, annRecord, annUser, bobRecord, bobUser, analyticsLoop,
      resolveAge, initDist, distUpdate, sumAges, round2, round_eq, process_user_data,
      mixedPeer, hm, hs, Except.map]
  · norm_num [round2, round_eq]

/-- Claim C2, as amended: for every record store and every peer behaviour in
which no 200 response carries a non-numeric age, `GET /analytics` returns
`average_age` equal to the sum of the contributed age values divided by the
number of contributing records, rounded to 2 decimal places — where a record
contributes its live age on a 200 response, its category estimate on an
exception, and nothing on a non-200 response — and 0.0 when no record
contributes (in particular for the empty store). -/
theorem claim_C2_thm (st : Store) (peer : Int → RemoteOutcome)
    (h : ∀ r ∈ st.map Prod.snd, ∀ v, peer r.user_id = .ok v → v ≠ .nonNum) :
    (get_analytics st peer).map (fun p => p.1.average_age) =
      .ok (round2 (if (specAges peer (st.map Prod.snd)).isEmpty then 0
        else ((specAges peer (st.map Prod.snd)).sum : ℚ) /
          ((specAges peer (st.map Prod.snd)).length : ℚ))) := by
  by_cases hempty : st.isEmpty
  · have : st = [] := List.isEmpty_iff.mp hempty
    subst this
    simp [get_analytics, specAges, Except.map, round2]
  · simp only [get_analytics, hempty, Bool.false_eq_true, if_false,
      analyticsLoop_eq, List.nil_append]
    rw [loopAges_eq_specAges peer _ h, sumAges_map_num]
    have hie : ((specAges peer (st.map Prod.snd)).map AgeVal.num).isEmpty =
        (specAges peer (st.map Prod.snd)).isEmpty := by
      cases specAges peer (st.map Prod.snd) <;> rfl
    simp [Except.map, hie, List.length_map]

/-- Claim C2, witness: the amended statement applied to the two-record store
with one live and one non-200 lookup. -/
theorem claim_C2_witness :
    (get_analytics pairStore mixedPeer).map (fun p => p.1.average_age) =
      .ok (round2 (if (specAges mixedPeer (pairStore.map Prod.snd)).isEmpty then 0
        else ((specAges mixedPeer (pairStore.map Prod.snd)).sum : ℚ) /
          ((specAges mixedPeer (pairStore.map Prod.snd)).length : ℚ))) :=
  claim_C2_thm pairStore mixedPeer (by
    intro r hr v hv hcontra
    subst hcontra
    simp only [pairStore, List.map_cons, List.map_nil, List.mem_cons,
      List.not_mem_nil, or_false] at hr
    rcases hr with rfl | rfl <;>
      simp [mixedPeer, annRecord, annUser, bobRecord, bobUser] at hv)

/-- Claim C3, counterexample. The claim says `GET /analytics` never errors
for any peer behaviour. But a peer answering 200 with a JSON body whose
`age` field is non-numeric slips past the `try` block (appending succeeds)
and later makes `sum(ages)` raise an uncaught `TypeError`, so the handler
fails instead of returning a summary. -/
theorem claim_C3_counterexample :
    get_analytics annStore (fun _ => RemoteOutcome.ok AgeVal.nonNum) = .error () := rfl

/-- Claim C3, as amended: `GET /analytics` runs to completion and returns a
summary for every record store and every peer behaviour in which each 200
response carries a numeric age (all exception-raising failures and non-200
responses included); with a non-numeric age in a 200 response the handler
dies on `sum(ages)`. -/
theorem claim_C3_thm (st : Store) (peer : Int → RemoteOutcome)
    (h : ∀ i v, peer i = .ok v → v ≠ .nonNum) :
    ∃ out, get_analytics st peer = .ok out := by
  by_cases hempty : st.isEmpty
  · obtain rfl : st = [] := List.isEmpty_iff.mp hempty
    exact ⟨_, rfl⟩
  · cases hres : get_analytics st peer with
    | ok out => exact ⟨out, rfl⟩
    | error e =>
      exfalso
      simp only [get_analytics, hempty, Bool.false_eq_true, if_false, analyticsLoop_eq,
        List.nil_append] at hres
      rw [loopAges_eq_specAges peer _ (fun r _ v hv => h _ v hv), sumAges_map_num] at hres
      simp at hres

/-- Claim C3, witness: a store with one record and a peer whose every call
raises still yields a summary. -/
theorem claim_C3_witness :
    ∃ out, get_analytics annStore (fun _ => RemoteOutcome.exn) = .ok out :=
  claim_C3_thm annStore _ (by intro i v hv; simp at hv)

/-- Claim C4: `derive` assigns category "young" exactly when age < 30,
"middle" exactly when 30 ≤ age < 50, "senior" exactly when age ≥ 50, and the
adult flag exactly when age ≥ 18 — the boundary ages 29/30, 49/50, 17/18
fall on the stated sides as instances of the equivalences. -/
theorem claim_C4_thm (u : RawUser) :
    ((process_user_data u).age_category = "young" ↔ u.age < 30) ∧
    ((process_user_data u).age_category = "middle" ↔ 30 ≤ u.age ∧ u.age < 50) ∧
    ((process_user_data u).age_category = "senior" ↔ 50 ≤ u.age) ∧
    ((process_user_data u).is_adult = true ↔ 18 ≤ u.age) := by
  have h1 : ("young" : String) ≠ "middle" := by decide
  have h2 : ("young" : String) ≠ "senior" := by decide
  have h3 : ("middle" : String) ≠ "young" := by decide
  have h4 : ("middle" : String) ≠ "senior" := by decide
  have h5 : ("senior" : String) ≠ "young" := by decide
  have h6 : ("senior" : String) ≠ "middle" := by decide
  simp only [process_user_data, decide_eq_true_eq]
  split_ifs with ha hb
  all_goals refine ⟨?_, ?_, ?_, ?_⟩ <;> simp [h1, h2, h3, h4, h5, h6] <;> omega

/-- Claim C5: for a raw user with a valid (present, nonzero) identifier,
`POST /process-user` followed by `GET /processed-users/{id}` returns exactly
the derived record computed from that same input, and
`DELETE /processed-users/{id}` followed by the same GET returns 404. -/
theorem claim_C5_thm (u : RawUser) (now : String) (st : Store) (i : Int)
    (h1 : u.id = some i) (h2 : i ≠ 0) :
    process_user u now st =
      .ok (dictInsert i ⟨i, process_user_data u, now, fixedAnalytics⟩ st, i) ∧
    get_processed_user i (dictInsert i ⟨i, process_user_data u, now, fixedAnalytics⟩ st) =
      .ok ⟨i, process_user_data u, now, fixedAnalytics⟩ ∧
    delete_processed_user i (dictInsert i ⟨i, process_user_data u, now, fixedAnalytics⟩ st) =
      .ok (⟨i, process_user_data u, now, fixedAnalytics⟩, deleteMsg i,
           dictRemove i (dictInsert i ⟨i, process_user_data u, now, fixedAnalytics⟩ st)) ∧
    get_processed_user i
        (dictRemove i (dictInsert i ⟨i, process_user_data u, now, fixedAnalytics⟩ st)) =
      .error 404 := by
  refine ⟨?_, ?_, ?_, ?_⟩
  · simp [process_user, h1, h2]
  · simp [get_processed_user, dictGet_dictInsert_self]
  · simp [delete_processed_user, dictGet_dictInsert_self]
  · simp [get_processed_user, dictGet_dictRemove_self]

/-- Claim C5, witness: the round trip for a concrete user on the empty
store. -/
theorem claim_C5_witness :
    process_user annUser "t0" [] = .ok ([(1, annRecord)], 1) ∧
    get_processed_user 1 [(1, annRecord)] = .ok annRecord ∧
    delete_processed_user 1 [(1, annRecord)] = .ok (annRecord, deleteMsg 1, []) ∧
    get_processed_user 1 ([] : Store) = .error 404 :=
  claim_C5_thm annUser "t0" [] 1 rfl (by decide)

/-- Claim C6: the delete operation answers 404 exactly when the identifier is
absent; otherwise `dict.pop` removes the entry — the identifier no longer
resolves afterwards — and hands the removed record back to the handler
(whose HTTP response carries a success message). -/
theorem claim_C6_thm (user_id : Int) (st : Store) :
    (dictGet user_id st = none → delete_processed_user user_id st = .error 404) ∧
    (∀ d, dictGet user_id st = some d →
      delete_processed_user user_id st = .ok (d, deleteMsg user_id, dictRemove user_id st) ∧
      dictGet user_id (dictRemove user_id st) = none) := by
  constructor
  · intro h
    simp [delete_processed_user, h]
  · intro d h
    exact ⟨by simp [delete_processed_user, h], dictGet_dictRemove_self _ _⟩

/-- Claim C6, witness: deleting the present key 1 succeeds and removes it;
deleting the absent key 2 answers 404. -/
theorem claim_C6_witness :
    delete_processed_user 1 annStore = .ok (annRecord, deleteMsg 1, []) ∧
    dictGet 1 ([] : Store) = none ∧
    delete_processed_user 2 annStore = .error 404 := by
  obtain ⟨hsome, hrm⟩ := (claim_C6_thm 1 annStore).2 annRecord rfl
  exact ⟨hsome, hrm, (claim_C6_thm 2 annStore).1 rfl⟩

/-- Claim C7, counterexample. The claim says a failure of an individual
re-submission is silently skipped and the batch continues. A submission that
raises (connection error, timeout) is also a failure, yet it propagates to
the outer `except` and the whole handler answers 500 instead of a count. -/
theorem claim_C7_counterexample :
    batch_process_users (.resp 200 [SubOutcome.exn]) = .error 500 ∧
    Except.error 500 ≠ (Except.ok ⟨1, 0⟩ : Except Nat BatchResp) :=
  ⟨rfl, by simp⟩

/-- Claim C7, as amended: `POST /batch-process` answers 500 when the initial
fetch raises or returns non-200; for a successfully fetched list, a
re-submission answered with a non-200 status is silently skipped (not
counted, not reported individually) and the response reports the count of
200-status submissions — but a re-submission that raises an exception aborts
the whole batch with 500. -/
theorem claim_C7_thm (users : List SubOutcome) (st : Nat) (pre post : List SubOutcome)
    (h : SubOutcome.exn ∉ users) (hst : st ≠ 200) :
    batch_process_users (.resp 200 users) =
      .ok ⟨users.length, users.countP (fun s => s == SubOutcome.status 200)⟩ ∧
    batch_process_users .exn = .error 500 ∧
    batch_process_users (.resp st pre) = .error 500 ∧
    batch_process_users (.resp 200 (pre ++ SubOutcome.exn :: post)) = .error 500 := by
  refine ⟨?_, rfl, ?_, ?_⟩
  · simp [batch_process_users, runSubs_no_exn users h]
  · simp [batch_process_users, hst]
  · simp [batch_process_users, runSubs_abort]

/-- Claim C7, witness: three fetched users with submission statuses
200/500/200 yield a count of 2; a raising fetch, a 503 fetch, and a raising
submission each yield 500. -/
theorem claim_C7_witness :
    batch_process_users
        (.resp 200 [SubOutcome.status 200, SubOutcome.status 500, SubOutcome.status 200]) =
      .ok ⟨3, 2⟩ ∧
    batch_process_users .exn = .error 500 ∧
    batch_process_users (.resp 503 [SubOutcome.status 200]) = .error 500 ∧
    batch_process_users
        (.resp 200 ([SubOutcome.status 200] ++ SubOutcome.exn :: [])) = .error 500 :=
  claim_C7_thm [SubOutcome.status 200, SubOutcome.status 500, SubOutcome.status 200] 503
    [SubOutcome.status 200] [] (by decide) (by decide)

/-- Claim C8: on the empty store, `GET /analytics` returns the all-zero
summary — zero total, average 0.0, empty distribution, empty processing
stats — and the trace of outbound peer calls is empty. -/
theorem claim_C8_thm (peer : Int → RemoteOutcome) :
    get_analytics [] peer =
      .ok ({ total_users := 0, average_age := 0,
             age_distribution := [], processing_stats := [] }, []) := rfl

/-- Claim C9: `derive` sets the email domain to the substring after the last
`@` when the email contains one, and to the sentinel "unknown" otherwise. -/
theorem claim_C9_thm (u : RawUser) :
    ('@' ∉ u.email.toList → (process_user_data u).email_domain = "unknown") ∧
    (∀ pre suf : List Char, u.email.toList = pre ++ '@' :: suf → '@' ∉ suf →
      (process_user_data u).email_domain = String.mk suf) := by
  constructor
  · intro h
    simp only [String.toList] at h
    simp [process_user_data, h]
  · intro pre suf heq hsuf
    have hmem : '@' ∈ u.email.toList := by
      rw [heq]
      exact List.mem_append_right _ (List.mem_cons_self _ _)
    simp only [String.toList] at hmem heq
    simp only [process_user_data, String.toList, if_pos hmem]
    rw [heq, pySplit_getLastD_append, pySplit_of_not_mem _ _ hsuf]
    rfl

/-- Claim C9, witness: "a@b.com" yields "b.com" and "noatsign" yields
"unknown". -/
theorem claim_C9_witness :
    (process_user_data ⟨some 9, "Bob", "a@b.com", 40⟩).email_domain = "b.com" ∧
    (process_user_data ⟨some 9, "Bob", "noatsign", 40⟩).email_domain = "unknown" :=
  ⟨(claim_C9_thm _).2 "a".toList "b.com".toList rfl (by decide),
   (claim_C9_thm _).1 (by decide)⟩

/-- Claim C10: whenever `GET /analytics` returns a summary for a non-empty
store whose records all carry one of the three categories — as every record
stored via `POST /process-user` does, which is the final conjunct — the age
distribution has exactly the keys "young", "middle", "senior", and its
counts sum to `total_users`. -/
theorem claim_C10_thm (st : Store) (peer : Int → RemoteOutcome) (s : AnalyticsSummary)
    (tr : List Int) (hne : st ≠ [])
    (hcat : ∀ r ∈ st.map Prod.snd,
      r.processed_data.age_category ∈ (["young", "middle", "senior"] : List String))
    (hok : get_analytics st peer = .ok (s, tr)) :
    s.age_distribution.map Prod.fst = ["young", "middle", "senior"] ∧
    (s.age_distribution.map Prod.snd).sum = s.total_users ∧
    ∀ u : RawUser,
      (process_user_data u).age_category ∈ (["young", "middle", "senior"] : List String) := by
  have hall : ∀ u : RawUser,
      (process_user_data u).age_category ∈ (["young", "middle", "senior"] : List String) := by
    intro u
    simp only [process_user_data]
    split_ifs <;> simp
  have hempty : st.isEmpty = false := by
    cases st with
    | nil => exact absurd rfl hne
    | cons p rest => rfl
  obtain ⟨a', b', c', heq, hsum⟩ := loopDist_three (st.map Prod.snd) 0 0 0 hcat
  simp only [get_analytics, hempty, Bool.false_eq_true, if_false, analyticsLoop_eq,
    List.nil_append] at hok
  cases hsum2 : sumAges (loopAges peer (st.map Prod.snd)) with
  | error e =>
    rw [hsum2] at hok
    simp at hok
  | ok total =>
    rw [hsum2] at hok
    simp only [Except.ok.injEq, Prod.mk.injEq] at hok
    obtain ⟨hs', htr'⟩ := hok
    subst hs'
    refine ⟨?_, ?_, hall⟩
    · simp only [initDist] at heq ⊢
      rw [heq]
      rfl
    · simp only [initDist] at heq ⊢
      rw [heq]
      simp only [List.map_cons, List.map_nil, List.sum_cons, List.sum_nil]
      rw [List.length_map] at hsum
      omega

/-- Claim C10, witness: the one-record store under an always-raising peer
produces the distribution young 1 / middle 0 / senior 0, whose keys are the
three categories and whose counts sum to the total of 1. -/
theorem claim_C10_witness :
    annSummary.age_distribution.map Prod.fst = ["young", "middle", "senior"] ∧
    (annSummary.age_distribution.map Prod.snd).sum = annSummary.total_users := by
  have hm : (("middle" : String) = "young") = False := by simp
  have hs : (("senior" : String) = "young") = False := by simp
  have h := claim_C10_thm annStore (fun _ => RemoteOutcome.exn) annSummary [1]
    (by simp [annStore])
    (by
      intro r hr
      simp only [annStore, List.map_cons, List.map_nil, List.mem_cons,
        List.not_mem_nil, or_false] at hr
      subst hr
      decide)
    (by
      norm_num [get_analytics, annStore, annRecord, annUser, annSummary, analyticsLoop,
        resolveAge, estimate, initDist, distUpdate, sumAges, round2, round_eq,
        process_user_data, hm, hs])
  exact ⟨h.1, h.2.1⟩

end Service2
